import Mathlib

/-!
Shallow embedding of the 2024-Presidental-Election-Predictor repository.

Python floats are modelled as exact rationals (ℚ), Python ints as ℤ/ℕ, and
the `random.gauss(mu, sigma)` primitive as `mu + sigma * z` where `z` is a
draw from an abstract standard-normal stream supplied as an oracle
`ℕ → ℚ` (the n-th value the global generator produces).  Python's
`ValueError` is modelled with `Except String`; a `dict` of states is
modelled as an association list with Python-dict update semantics.

Each of the repository's module variants (`models.py`, `election.py`,
`election_simulation.py`, `simulation_pipeline.py`, `accuracy_evaluation.py`)
gets its own namespace; the `State` class, whose fields and defaults are
identical across all of the modules, is shared.
-/

/-- A poll record as stored by `State.add_poll` in every module variant:
keys `harris`, `trump`, `weight`, `moe`. -/
structure Poll where
  harris : ℚ
  trump : ℚ
  weight : ℤ
  moe : ℚ
  deriving Repr, DecidableEq

/-- The `State` class common to all module variants: name, electoral votes,
poll list, and the derived support/uncertainty figures with their
constructor defaults 50.0 / 50.0 / 4.0. -/
structure State where
  name : String
  electoral_votes : ℤ
  polls : List Poll
  harris_support : ℚ
  trump_support : ℚ
  std_dev : ℚ
  deriving Repr, DecidableEq

/-- `State(name, electoral_votes)`: the constructor with its field defaults. -/
def mkState (name : String) (electoral_votes : ℤ) : State :=
  { name := name
    electoral_votes := electoral_votes
    polls := []
    harris_support := 50
    trump_support := 50
    std_dev := 4 }

/-- `State.add_poll` (identical in every module variant): rejects a weight
outside [1,10] with `ValueError("Weight must be between 1 and 10")` before
anything is stored, otherwise appends the poll record. -/
def State.add_poll (s : State) (harris_support trump_support : ℚ)
    (weight : ℤ) (moe : ℚ) : Except String State :=
  if weight < 1 ∨ weight > 10 then
    Except.error "Weight must be between 1 and 10"
  else
    Except.ok { s with polls := s.polls ++
      [{ harris := harris_support, trump := trump_support,
         weight := weight, moe := moe }] }

/-- `sum(poll['weight'] for poll in self.polls)`. -/
def totalWeight (polls : List Poll) : ℤ :=
  (polls.map Poll.weight).sum

/-- `sum(poll['harris'] * poll['weight'] for poll in self.polls)`. -/
def harrisTotal (polls : List Poll) : ℚ :=
  (polls.map (fun p => p.harris * (p.weight : ℚ))).sum

/-- `sum(poll['trump'] * poll['weight'] for poll in self.polls)`. -/
def trumpTotal (polls : List Poll) : ℚ :=
  (polls.map (fun p => p.trump * (p.weight : ℚ))).sum

/-- `sum(poll['moe'] * poll['weight'] for poll in self.polls)`. -/
def moeTotal (polls : List Poll) : ℚ :=
  (polls.map (fun p => p.moe * (p.weight : ℚ))).sum

namespace models

/-- `State.calculate_weighted_support` from `src/models.py`: weighted
averages, and `std_dev = weighted_moe / 1.96` raised to 1.0 when below it
(`if self.std_dev < 1.0: self.std_dev = 1.0`). -/
def calculate_weighted_support (s : State) : State :=
  let total_weight := totalWeight s.polls
  if total_weight = 0 then
    { s with harris_support := 50, trump_support := 50, std_dev := 2 }
  else
    let weighted_moe := moeTotal s.polls / (total_weight : ℚ)
    let sd := weighted_moe / 1.96
    { s with
      harris_support := harrisTotal s.polls / (total_weight : ℚ)
      trump_support := trumpTotal s.polls / (total_weight : ℚ)
      std_dev := if sd < 1 then 1 else sd }

end models

namespace election

/-- `State.calculate_weighted_support` from `src/election.py`: same weighted
averages but it ignores the margin of error and sets `self.std_dev = 4.0`
unconditionally in the non-empty branch. -/
def calculate_weighted_support (s : State) : State :=
  let total_weight := totalWeight s.polls
  if total_weight = 0 then
    { s with harris_support := 50, trump_support := 50, std_dev := 2 }
  else
    { s with
      harris_support := harrisTotal s.polls / (total_weight : ℚ)
      trump_support := trumpTotal s.polls / (total_weight : ℚ)
      std_dev := 4 }

end election

namespace election_simulation

/-- `State.calculate_weighted_support` from `src/election_simulation.py`:
textually the same computation as the `models.py` variant. -/
def calculate_weighted_support (s : State) : State :=
  let total_weight := totalWeight s.polls
  if total_weight = 0 then
    { s with harris_support := 50, trump_support := 50, std_dev := 2 }
  else
    let weighted_moe := moeTotal s.polls / (total_weight : ℚ)
    let sd := weighted_moe / 1.96
    { s with
      harris_support := harrisTotal s.polls / (total_weight : ℚ)
      trump_support := trumpTotal s.polls / (total_weight : ℚ)
      std_dev := if sd < 1 then 1 else sd }

end election_simulation

namespace simulation_pipeline

/-- `State.calculate_weighted_support` from `src/simulation_pipeline.py`:
as in `models.py` but the floor is written `max(weighted_moe / 1.96, 1.0)`. -/
def calculate_weighted_support (s : State) : State :=
  let total_weight := totalWeight s.polls
  if total_weight = 0 then
    { s with harris_support := 50, trump_support := 50, std_dev := 2 }
  else
    let weighted_moe := moeTotal s.polls / (total_weight : ℚ)
    { s with
      harris_support := harrisTotal s.polls / (total_weight : ℚ)
      trump_support := trumpTotal s.polls / (total_weight : ℚ)
      std_dev := max (weighted_moe / 1.96) 1 }

end simulation_pipeline

/-- The reference aggregation of spec §4.1, written from the spec's own
piecewise description: empty polls give the fixed neutral prior
`(50, 50, 2)`, otherwise the weight-weighted support averages together with
`max(1, weightedMOE / 1.96)`. -/
def aggregate_spec (polls : List Poll) : ℚ × ℚ × ℚ :=
  if polls = [] then (50, 50, 2)
  else
    let W : ℚ := (totalWeight polls : ℚ)
    (harrisTotal polls / W, trumpTotal polls / W,
      max 1 ((moeTotal polls / W) / 1.96))

/-- `random.gauss(mu, sigma)` modelled as `mu + sigma * z`, with `z` the
standard-normal draw the generator produces for this call. -/
def gauss (mu sigma z : ℚ) : ℚ :=
  mu + sigma * z

/-- One per-simulation entry of the engine's result list:
`{'Harris': harris_evs, 'Trump': trump_evs}`. -/
structure TrialResult where
  Harris : ℤ
  Trump : ℤ
  deriving Repr, DecidableEq

/-- The summary dict of `BasicResultAnalyzer.summarize`:
`{'Harris': _, 'Trump': _, 'Ties': _}`. -/
structure Summary where
  Harris : ℕ
  Trump : ℕ
  Ties : ℕ
  deriving Repr, DecidableEq

namespace simulation_pipeline

/-- The inner per-state loop of `MonteCarloSimulationEngine.run`: walks the
states, draws `random.gauss(margin, std_dev)` as the `k`-th value of the
standard-normal stream `z`, and accumulates `harris_evs`/`trump_evs`.
Returns the two tallies together with the advanced stream position. -/
def trialTally (z : ℕ → ℚ) : List State → ℕ → ℤ → ℤ → ℤ × ℤ × ℕ
  | [], k, harris_evs, trump_evs => (harris_evs, trump_evs, k)
  | st :: rest, k, harris_evs, trump_evs =>
    let margin := st.harris_support - st.trump_support
    let outcome := gauss margin st.std_dev (z k)
    if outcome > 0 then
      trialTally z rest (k + 1) (harris_evs + st.electoral_votes) trump_evs
    else
      trialTally z rest (k + 1) harris_evs (trump_evs + st.electoral_votes)

/-- The outer loop of `MonteCarloSimulationEngine.run`: one `trialTally`
per simulation, threading the position in the random stream. -/
def runAux (z : ℕ → ℚ) (states : List State) : ℕ → ℕ → List TrialResult
  | 0, _ => []
  | n + 1, k =>
    let r := trialTally z states k 0 0
    { Harris := r.1, Trump := r.2.1 } :: runAux z states n r.2.2

/-- `MonteCarloSimulationEngine.run(states, simulations)` from
`src/simulation_pipeline.py`, with the module-global `random` generator
modelled as the standard-normal stream `z` consumed from position 0. -/
def MonteCarloSimulationEngine.run (z : ℕ → ℚ) (states : List State)
    (simulations : ℕ) : List TrialResult :=
  runAux z states simulations 0

/-- `BasicResultAnalyzer.summarize(results)` from
`src/simulation_pipeline.py`. -/
def BasicResultAnalyzer.summarize (results : List TrialResult) : Summary :=
  results.foldl
    (fun summary result =>
      if result.Harris ≥ 270 then { summary with Harris := summary.Harris + 1 }
      else if result.Trump ≥ 270 then { summary with Trump := summary.Trump + 1 }
      else { summary with Ties := summary.Ties + 1 })
    { Harris := 0, Trump := 0, Ties := 0 }

end simulation_pipeline

/-- The spec's award rule for side A (§4.3 step 3), written from the spec:
a state's electoral votes go to side A exactly when its drawn sample is
strictly positive.  `k` is the stream position of the first draw. -/
def harrisAward (z : ℕ → ℚ) : List State → ℕ → ℤ
  | [], _ => 0
  | st :: rest, k =>
    (if 0 < gauss (st.harris_support - st.trump_support) st.std_dev (z k)
      then st.electoral_votes else 0) + harrisAward z rest (k + 1)

/-- The spec's award rule for side B (§4.3 step 3), written from the spec:
a state's electoral votes go to side B exactly when its drawn sample is
at most zero — a sample of exactly 0 counts for side B. -/
def trumpAward (z : ℕ → ℚ) : List State → ℕ → ℤ
  | [], _ => 0
  | st :: rest, k =>
    (if gauss (st.harris_support - st.trump_support) st.std_dev (z k) ≤ 0
      then st.electoral_votes else 0) + trumpAward z rest (k + 1)

/-- A row of `polling_data.csv` as returned by `_read_polling_data`. -/
structure PollRow where
  state_name : String
  harris_support : ℚ
  trump_support : ℚ
  weight : ℤ
  moe : ℚ
  deriving Repr, DecidableEq

/-- A Python `dict` of states, keyed by name, as an association list. -/
abbrev StatesDict : Type := List (String × State)

/-- Python-dict assignment `states[k] = v`: replace in place when the key
is present, append otherwise. -/
def setState : StatesDict → String → State → StatesDict
  | [], k, v => [(k, v)]
  | (k', v') :: rest, k, v =>
    if k' = k then (k, v) :: rest else (k', v') :: setState rest k v

/-- Python-dict lookup combined with the `if name in states` guard. -/
def lookupState : StatesDict → String → Option State
  | [], _ => none
  | (k', v') :: rest, k => if k' = k then some v' else lookupState rest k

namespace simulation_pipeline

/-- The safe-Harris override body in `CSVFilePollDataSource.get_states`. -/
def safe_harris_update (s : State) : State :=
  { s with harris_support := 60, trump_support := 35, std_dev := 2 }

/-- The safe-Trump override body in `CSVFilePollDataSource.get_states`. -/
def safe_trump_update (s : State) : State :=
  { s with harris_support := 35, trump_support := 60, std_dev := 2 }

/-- `_read_states_info`, with the parsed CSV rows given as the
`(name, electoral_votes)` roster. -/
def read_states_info (roster : List (String × ℤ)) : StatesDict :=
  roster.foldl (fun m r => setState m r.1 (mkState r.1 r.2)) []

/-- The `if state_name in states: ... mutate ...` pattern shared by the
override, polling and recomputation loops of `get_states`. -/
def applyIfPresent (m : StatesDict) (name : String) (f : State → State) :
    StatesDict :=
  match lookupState m name with
  | some st => setState m name (f st)
  | none => m

/-- The safe-Harris loop of `get_states`. -/
def applySafeHarris (m : StatesDict) (names : List String) : StatesDict :=
  names.foldl (fun m n => applyIfPresent m n safe_harris_update) m

/-- The safe-Trump loop of `get_states`. -/
def applySafeTrump (m : StatesDict) (names : List String) : StatesDict :=
  names.foldl (fun m n => applyIfPresent m n safe_trump_update) m

/-- The polling loop of `get_states`: `state.add_poll(...)` for each row
whose state exists; an invalid weight propagates the `ValueError`,
aborting the loop as a raised exception does. -/
def addPolls : StatesDict → List PollRow → Except String StatesDict
  | m, [] => Except.ok m
  | m, poll :: rest =>
    match lookupState m poll.state_name with
    | some st =>
      match st.add_poll poll.harris_support poll.trump_support
          poll.weight poll.moe with
      | Except.error e => Except.error e
      | Except.ok st' => addPolls (setState m poll.state_name st') rest
    | none => addPolls m rest

/-- The competitive-states loop of `get_states`:
`states[state_name].calculate_weighted_support()`. -/
def applyCompetitive (m : StatesDict) (names : List String) : StatesDict :=
  names.foldl (fun m n => applyIfPresent m n calculate_weighted_support) m

/-- `CSVFilePollDataSource.get_states` from `src/simulation_pipeline.py`,
with the file contents given as already-parsed in-memory values (the CSV
and text-file reading is I/O glue outside the model). -/
def get_states (roster : List (String × ℤ))
    (safe_states_harris safe_states_trump competitive_states : List String)
    (polling_data : List PollRow) : Except String StatesDict :=
  let states := read_states_info roster
  let states := applySafeHarris states safe_states_harris
  let states := applySafeTrump states safe_states_trump
  match addPolls states polling_data with
  | Except.error e => Except.error e
  | Except.ok states => Except.ok (applyCompetitive states competitive_states)

end simulation_pipeline

namespace accuracy_evaluation

/-- One increment of the `win_counts[state.name][...] += 1` update in
`simulate_state_winners`; counts are `(Harris, Trump)` pairs keyed by
state name. -/
def bumpCount (w : String → ℕ × ℕ) (name : String) (harrisWon : Bool) :
    String → ℕ × ℕ :=
  fun n =>
    if n = name then
      if harrisWon then ((w name).1 + 1, (w name).2)
      else ((w name).1, (w name).2 + 1)
    else w n

/-- The inner per-state loop of `simulate_state_winners`: one
`random.gauss(margin, std_dev)` draw per state, incrementing that state's
Harris count when the result is strictly positive, its Trump count
otherwise.  Returns the updated counts and the advanced stream position. -/
def oneTrial (z : ℕ → ℚ) :
    List State → ℕ → (String → ℕ × ℕ) → (String → ℕ × ℕ) × ℕ
  | [], k, w => (w, k)
  | st :: rest, k, w =>
    let result := gauss (st.harris_support - st.trump_support) st.std_dev (z k)
    oneTrial z rest (k + 1) (bumpCount w st.name (decide (0 < result)))

/-- The outer `for _ in range(simulations)` loop of
`simulate_state_winners`. -/
def trialsLoop (z : ℕ → ℚ) (states : List State) :
    ℕ → ℕ → (String → ℕ × ℕ) → (String → ℕ × ℕ)
  | 0, _, w => w
  | n + 1, k, w =>
    let r := oneTrial z states k w
    trialsLoop z states n r.2 r.1

/-- The final `win_counts` mapping of `simulate_state_winners`: every
state starts at `{'Harris': 0, 'Trump': 0}` and the seeded stream is
consumed from position 0. -/
def win_counts (z : ℕ → ℚ) (states : List State) (simulations : ℕ) :
    String → ℕ × ℕ :=
  trialsLoop z states simulations 0 (fun _ => (0, 0))

/-- The prediction rule of `simulate_state_winners`:
`'Democrat' if counts['Harris'] >= counts['Trump'] else 'Republican'`. -/
def predictionOf (counts : ℕ × ℕ) : String :=
  if counts.1 ≥ counts.2 then "Democrat" else "Republican"

/-- `simulate_state_winners(states, simulations, seed)` from
`src/accuracy_evaluation.py`.  `random.seed(seed)` makes every subsequent
draw a pure function of the seed; this is modelled by the family `prng`
mapping a seed to the standard-normal stream the seeded generator
produces.  The states dict is given as the list of its values, whose
names are unique (dict keys). -/
def simulate_state_winners (prng : ℕ → ℕ → ℚ) (states : List State)
    (simulations : ℕ) (seed : ℕ) : List (String × String) :=
  let w := win_counts (prng seed) states simulations
  states.map (fun st => (st.name, predictionOf (w st.name)))

end accuracy_evaluation

/-- The result dict of `simulate_election` as read by
`src/tests/test_simulation.py`: `results['harris_wins']`,
`results['trump_wins']`, plus the remaining no-majority count. -/
structure SimResults where
  harris_wins : ℕ
  trump_wins : ℕ
  ties : ℕ
  deriving Repr, DecidableEq

namespace simulation

/-- Modelled from the spec: `simulate_election` — the function of
`src/simulation.py` that `src/tests/test_simulation.py` imports is not
present in the file under `src/` (that file only has a `main` entry
point), so its per-state sampling step is taken from spec §4.2/§4.3:
`effectiveMargin = (supportA - supportB) + turnoutShift.get(name, 0.0)`,
sampled with standard deviation `uncertainty * uncertaintyMultiplier`,
and a strictly positive sample awards the state to side A. -/
def trialTallyScenario (z : ℕ → ℚ) (poll_uncertainty : ℚ)
    (turnout_scenario : String → ℚ) :
    List State → ℕ → ℤ → ℤ → ℤ × ℤ × ℕ
  | [], k, harris_evs, trump_evs => (harris_evs, trump_evs, k)
  | st :: rest, k, harris_evs, trump_evs =>
    let margin := st.harris_support - st.trump_support + turnout_scenario st.name
    let outcome := gauss margin (st.std_dev * poll_uncertainty) (z k)
    if outcome > 0 then
      trialTallyScenario z poll_uncertainty turnout_scenario rest (k + 1)
        (harris_evs + st.electoral_votes) trump_evs
    else
      trialTallyScenario z poll_uncertainty turnout_scenario rest (k + 1)
        harris_evs (trump_evs + st.electoral_votes)

/-- Modelled from the spec: the trial loop of `simulate_election`,
classifying each trial with the §4.4 threshold rule at 270 and
accumulating the win counters the test reads. -/
def simulateElectionAux (z : ℕ → ℚ) (states : List State)
    (poll_uncertainty : ℚ) (turnout_scenario : String → ℚ) :
    ℕ → ℕ → SimResults → SimResults
  | 0, _, acc => acc
  | n + 1, k, acc =>
    let r := trialTallyScenario z poll_uncertainty turnout_scenario states k 0 0
    let acc :=
      if r.1 ≥ 270 then { acc with harris_wins := acc.harris_wins + 1 }
      else if r.2.1 ≥ 270 then { acc with trump_wins := acc.trump_wins + 1 }
      else { acc with ties := acc.ties + 1 }
    simulateElectionAux z states poll_uncertainty turnout_scenario n r.2.2 acc

/-- Modelled from the spec: `simulate_election(states, simulations,
poll_uncertainty, turnout_scenario)` — §4.3's engine with the
poll-uncertainty multiplier and turnout shift applied at sampling time,
the global generator modelled as the standard-normal stream `z`. -/
def simulate_election (z : ℕ → ℚ) (states : List State) (simulations : ℕ)
    (poll_uncertainty : ℚ) (turnout_scenario : String → ℚ) : SimResults :=
  simulateElectionAux z states poll_uncertainty turnout_scenario simulations 0
    { harris_wins := 0, trump_wins := 0, ties := 0 }

end simulation

/-! ## Helper lemmas -/

/-- A list of polls whose weights are all at least 1 has positive total
weight as soon as it is non-empty. -/
theorem totalWeight_pos (polls : List Poll) (hw : ∀ p ∈ polls, 1 ≤ p.weight)
    (hne : polls ≠ []) : 0 < totalWeight polls := by
  unfold totalWeight
  apply List.sum_pos
  · intro x hx
    rcases List.mem_map.mp hx with ⟨p, hp, rfl⟩
    exact lt_of_lt_of_le zero_lt_one (hw p hp)
  · simpa using hne

/-- The `if _ < 1.0` floor used in `models.py` agrees with `max 1 _`. -/
theorem if_lt_one_eq_max (a : ℚ) : (if a < 1 then 1 else a) = max 1 a := by
  rcases le_or_lt 1 a with h | h
  · rw [if_neg (not_lt.mpr h), max_eq_right h]
  · rw [if_pos h, max_eq_left h.le]

/-! ## C1 -/

/-- C1: for every poll list (with the data model's weights, each at
least 1), `models.calculate_weighted_support` sets the state's derived
figures to the reference piecewise definition of spec §4.1: empty polls
(total weight 0) give `(50, 50, 2)` without faulting, otherwise the
weight-weighted support averages, and the weighted average margin of
error divided by 1.96 floored at 1.0. -/
theorem C1_weighted_support_matches_spec (s : State)
    (hw : ∀ p ∈ s.polls, 1 ≤ p.weight) :
    ((models.calculate_weighted_support s).harris_support,
     (models.calculate_weighted_support s).trump_support,
     (models.calculate_weighted_support s).std_dev) = aggregate_spec s.polls := by
  by_cases hnil : s.polls = []
  · simp [models.calculate_weighted_support, aggregate_spec, hnil, totalWeight]
  · have hpos := totalWeight_pos s.polls hw hnil
    have h0 : totalWeight s.polls ≠ 0 := ne_of_gt hpos
    simp only [models.calculate_weighted_support, aggregate_spec, h0,
      if_false, hnil, if_neg hnil]
    simp [if_lt_one_eq_max, max_comm]

/-- Witness for C1 at the spec §8 example poll pair. -/
def c1State : State :=
  { mkState "Test" 10 with
    polls := [⟨55, 45, 2, 3⟩, ⟨50, 50, 1, 4⟩] }

theorem C1_weighted_support_matches_spec_witness :
    ((models.calculate_weighted_support c1State).harris_support,
     (models.calculate_weighted_support c1State).trump_support,
     (models.calculate_weighted_support c1State).std_dev) =
      aggregate_spec c1State.polls :=
  C1_weighted_support_matches_spec c1State (by decide)

/-! ## C2 and C7: the Monte Carlo trial loop -/

/-- Characterization of the inner trial loop: it adds the spec's two
award sums to the accumulators and advances the stream by one draw per
state. -/
theorem trialTally_eq (z : ℕ → ℚ) :
    ∀ (states : List State) (k : ℕ) (h t : ℤ),
      simulation_pipeline.trialTally z states k h t =
        (h + harrisAward z states k, t + trumpAward z states k,
          k + states.length) := by
  intro states
  induction states with
  | nil =>
    intro k h t
    simp [simulation_pipeline.trialTally, harrisAward, trumpAward]
  | cons st rest ih =>
    intro k h t
    simp only [simulation_pipeline.trialTally, harrisAward, trumpAward]
    by_cases hc : 0 < gauss (st.harris_support - st.trump_support) st.std_dev (z k)
    · rw [if_pos hc, ih, if_pos hc, if_neg (not_le.mpr hc)]
      refine Prod.ext ?_ (Prod.ext ?_ ?_) <;> simp [List.length_cons] <;> ring
    · rw [if_neg hc, ih, if_neg hc, if_pos (not_lt.mp hc)]
      refine Prod.ext ?_ (Prod.ext ?_ ?_) <;> simp [List.length_cons] <;> ring
  
/-- Characterization of the outer loop: trial `t` consumes the draws
starting at position `k + t * states.length`. -/
theorem runAux_eq (z : ℕ → ℚ) (states : List State) :
    ∀ (n k : ℕ),
      simulation_pipeline.runAux z states n k =
        (List.range n).map (fun t =>
          { Harris := harrisAward z states (k + t * states.length),
            Trump := trumpAward z states (k + t * states.length) }) := by
  intro n
  induction n with
  | zero => intro k; simp [simulation_pipeline.runAux]
  | succ m ih =>
    intro k
    rw [List.range_succ_eq_map]
    simp only [simulation_pipeline.runAux, trialTally_eq, List.map_cons,
      List.map_map]
    refine List.cons_eq_cons.mpr ⟨by simp, ?_⟩
    rw [ih]
    apply List.map_congr_left
    intro t _
    have harg : k + states.length + t * states.length =
        k + (Nat.succ t) * states.length := by
      rw [Nat.succ_eq_add_one]; ring
    simp [Function.comp, harg]

/-- C2: in every Monte Carlo trial, for every state, the drawn margin
sample decides the state by a strict greater-than-zero test: a sample
`> 0` sends the state's electoral votes to Harris's trial total, any
other sample (including exactly 0) sends them to Trump's. -/
theorem C2_trial_award_rule (z : ℕ → ℚ) (states : List State)
    (simulations : ℕ) :
    simulation_pipeline.MonteCarloSimulationEngine.run z states simulations =
      (List.range simulations).map (fun t =>
        { Harris := harrisAward z states (t * states.length),
          Trump := trumpAward z states (t * states.length) }) := by
  unfold simulation_pipeline.MonteCarloSimulationEngine.run
  rw [runAux_eq]
  simp

/-- Every state's electoral votes land in exactly one of the two award
sums, so the sums always add up to the total electoral votes in play. -/
theorem harrisAward_add_trumpAward (z : ℕ → ℚ) :
    ∀ (states : List State) (k : ℕ),
      harrisAward z states k + trumpAward z states k =
        (states.map State.electoral_votes).sum := by
  intro states
  induction states with
  | nil => intro k; simp [harrisAward, trumpAward]
  | cons st rest ih =>
    intro k
    simp only [harrisAward, trumpAward, List.map_cons, List.sum_cons]
    by_cases hc : 0 < gauss (st.harris_support - st.trump_support) st.std_dev (z k)
    · rw [if_pos hc, if_neg (not_le.mpr hc), ← ih (k + 1)]
      ring
    · rw [if_neg hc, if_pos (not_lt.mp hc), ← ih (k + 1)]
      ring

/-- C7: every trial result produced by the Monte Carlo engine satisfies
`votesA + votesB = total electoral votes of the input states`, for every
random stream, state list and trial count. -/
theorem C7_votes_conserved (z : ℕ → ℚ) (states : List State)
    (simulations : ℕ) (r : TrialResult)
    (hr : r ∈ simulation_pipeline.MonteCarloSimulationEngine.run z states
      simulations) :
    r.Harris + r.Trump = (states.map State.electoral_votes).sum := by
  unfold simulation_pipeline.MonteCarloSimulationEngine.run at hr
  rw [runAux_eq] at hr
  rcases List.mem_map.mp hr with ⟨t, -, rfl⟩
  simpa using harrisAward_add_trumpAward z states (0 + t * states.length)

theorem C7_votes_conserved_witness :
    ({ Harris := 3, Trump := 0 } : TrialResult) ∈
      simulation_pipeline.MonteCarloSimulationEngine.run (fun _ => 1)
        [mkState "A" 3] 1 ∧
    ({ Harris := 3, Trump := 0 } : TrialResult).Harris +
      ({ Harris := 3, Trump := 0 } : TrialResult).Trump =
      (([mkState "A" 3]).map State.electoral_votes).sum :=
  ⟨by simp [simulation_pipeline.MonteCarloSimulationEngine.run,
      simulation_pipeline.runAux, simulation_pipeline.trialTally, gauss, mkState],
    C7_votes_conserved (fun _ => 1) [mkState "A" 3] 1
      { Harris := 3, Trump := 0 }
      (by simp [simulation_pipeline.MonteCarloSimulationEngine.run,
        simulation_pipeline.runAux, simulation_pipeline.trialTally, gauss,
        mkState])⟩

/-! ## C3: the result summarizer -/

/-- Generalized accumulator form of the summarizer loop: each counter
ends at its start value plus the number of trials its branch matched. -/
theorem summarize_foldl (results : List TrialResult) :
    ∀ (a b c : ℕ),
      results.foldl
        (fun (summary : Summary) (result : TrialResult) =>
          if result.Harris ≥ 270 then { summary with Harris := summary.Harris + 1 }
          else if result.Trump ≥ 270 then { summary with Trump := summary.Trump + 1 }
          else { summary with Ties := summary.Ties + 1 })
        ({ Harris := a, Trump := b, Ties := c } : Summary) =
      { Harris := a + results.countP (fun r => decide (270 ≤ r.Harris)),
        Trump := b + results.countP
          (fun r => decide (r.Harris < 270) && decide (270 ≤ r.Trump)),
        Ties := c + results.countP
          (fun r => decide (r.Harris < 270) && decide (r.Trump < 270)) } := by
  induction results with
  | nil => intro a b c; simp
  | cons r rs ih =>
    intro a b c
    simp only [List.foldl_cons, List.countP_cons]
    by_cases h1 : (270 : ℤ) ≤ r.Harris
    · rw [if_pos h1, ih]
      simp [h1, not_lt.mpr h1]
      omega
    · rw [if_neg h1]
      by_cases h2 : (270 : ℤ) ≤ r.Trump
      · rw [if_pos h2, ih]
        simp [h1, h2, not_le.mp h1, not_lt.mpr h2]
        omega
      · rw [if_neg h2, ih]
        simp [h1, h2, not_le.mp h1, not_le.mp h2]
        omega

/-- C3: the summarizer classifies each trial with the threshold-270 rule
(`votesA >= 270` counts for A, else `votesB >= 270` for B, else a tie),
so each counter is the number of trials matching its branch; on the
input `[(300,238), (200,338), (269,269)]` the summary is `(1,1,1)`. -/
theorem C3_summarizer_rule :
    (∀ results : List TrialResult,
      simulation_pipeline.BasicResultAnalyzer.summarize results =
        { Harris := results.countP (fun r => decide (270 ≤ r.Harris)),
          Trump := results.countP
            (fun r => decide (r.Harris < 270) && decide (270 ≤ r.Trump)),
          Ties := results.countP
            (fun r => decide (r.Harris < 270) && decide (r.Trump < 270)) }) ∧
    simulation_pipeline.BasicResultAnalyzer.summarize
      [{ Harris := 300, Trump := 238 }, { Harris := 200, Trump := 338 },
       { Harris := 269, Trump := 269 }] =
      { Harris := 1, Trump := 1, Ties := 1 } := by
  constructor
  · intro results
    unfold simulation_pipeline.BasicResultAnalyzer.summarize
    rw [summarize_foldl]
    simp
  · decide

/-! ## C4: the uncertainty floor through the pipeline -/

/-- The `models.py` aggregation never leaves `std_dev` below 1. -/
theorem models_calc_std_dev_ge_one (s : State) :
    1 ≤ (models.calculate_weighted_support s).std_dev := by
  unfold models.calculate_weighted_support
  by_cases h : totalWeight s.polls = 0
  · simp [h]
  · simp [h, if_lt_one_eq_max]

/-- The `simulation_pipeline.py` aggregation never leaves `std_dev`
below 1. -/
theorem pipeline_calc_std_dev_ge_one (s : State) :
    1 ≤ (simulation_pipeline.calculate_weighted_support s).std_dev := by
  unfold simulation_pipeline.calculate_weighted_support
  by_cases h : totalWeight s.polls = 0
  · simp [h]
  · simp [h]

/-- `add_poll` never touches `std_dev`. -/
theorem add_poll_std_dev (s : State) (hs ts : ℚ) (w : ℤ) (moe : ℚ)
    (s' : State)
    (hok : s.add_poll hs ts w moe = Except.ok s') :
    s'.std_dev = s.std_dev := by
  unfold State.add_poll at hok
  by_cases hw : w < 1 ∨ w > 10
  · simp [hw] at hok
  · simp only [hw, if_false] at hok
    cases hok
    rfl

/-- `setState` only adds the supplied binding. -/
theorem mem_setState (p : String × State) :
    ∀ (m : StatesDict) (k : String) (v : State),
      p ∈ setState m k v → p ∈ m ∨ p = (k, v) := by
  intro m
  induction m with
  | nil =>
    intro k v hp
    simp [setState] at hp
    simp [hp]
  | cons q rest ih =>
    intro k v hp
    obtain ⟨k', v'⟩ := q
    unfold setState at hp
    by_cases hk : k' = k
    · rw [if_pos hk] at hp
      rcases List.mem_cons.mp hp with h | h
      · right; exact h
      · left; exact List.mem_cons_of_mem _ h
    · rw [if_neg hk] at hp
      rcases List.mem_cons.mp hp with h | h
      · left; exact h ▸ List.mem_cons_self _ _
      · rcases ih k v h with h2 | h2
        · left; exact List.mem_cons_of_mem _ h2
        · right; exact h2

/-- A successful `lookupState` returns a binding of the dict. -/
theorem lookupState_mem (k : String) (v : State) :
    ∀ m : StatesDict, lookupState m k = some v → (k, v) ∈ m := by
  intro m
  induction m with
  | nil => intro h; simp [lookupState] at h
  | cons q rest ih =>
    intro h
    obtain ⟨k', v'⟩ := q
    unfold lookupState at h
    by_cases hk : k' = k
    · rw [if_pos hk] at h
      cases h
      subst hk
      exact List.mem_cons_self _ _
    · rw [if_neg hk] at h
      exact List.mem_cons_of_mem _ (ih h)

/-- `setState` with a value meeting the floor preserves the floor. -/
theorem setState_std_dev_inv (m : StatesDict) (k : String) (v : State)
    (hm : ∀ p ∈ m, 1 ≤ p.2.std_dev) (hv : 1 ≤ v.std_dev) :
    ∀ p ∈ setState m k v, 1 ≤ p.2.std_dev := by
  intro p hp
  rcases mem_setState p m k v hp with h | rfl
  · exact hm p h
  · exact hv

/-- `applyIfPresent` with an updater meeting the floor preserves it. -/
theorem applyIfPresent_std_dev_inv (m : StatesDict) (name : String)
    (f : State → State) (hf : ∀ st, 1 ≤ (f st).std_dev)
    (hm : ∀ p ∈ m, 1 ≤ p.2.std_dev) :
    ∀ p ∈ simulation_pipeline.applyIfPresent m name f, 1 ≤ p.2.std_dev := by
  unfold simulation_pipeline.applyIfPresent
  cases hlk : lookupState m name with
  | none => simpa using hm
  | some st => exact setState_std_dev_inv m name (f st) hm (hf st)

/-- Folding `applyIfPresent` over a name list preserves the floor. -/
theorem foldl_applyIfPresent_std_dev_inv (f : State → State)
    (hf : ∀ st, 1 ≤ (f st).std_dev) :
    ∀ (names : List String) (m : StatesDict),
      (∀ p ∈ m, 1 ≤ p.2.std_dev) →
      ∀ p ∈ names.foldl
        (fun m n => simulation_pipeline.applyIfPresent m n f) m,
        1 ≤ p.2.std_dev := by
  intro names
  induction names with
  | nil => intro m hm; simpa using hm
  | cons n rest ih =>
    intro m hm
    simp only [List.foldl_cons]
    exact ih _ (applyIfPresent_std_dev_inv m n f hf hm)

/-- Every state built by `read_states_info` has the default
`std_dev = 4`. -/
theorem read_states_info_std_dev_inv (roster : List (String × ℤ)) :
    ∀ p ∈ simulation_pipeline.read_states_info roster, 1 ≤ p.2.std_dev := by
  unfold simulation_pipeline.read_states_info
  suffices h : ∀ (roster : List (String × ℤ)) (m : StatesDict),
      (∀ p ∈ m, 1 ≤ p.2.std_dev) →
      ∀ p ∈ roster.foldl (fun m r => setState m r.1 (mkState r.1 r.2)) m,
        1 ≤ p.2.std_dev by
    apply h
    intro p hp
    simp at hp
  intro roster
  induction roster with
  | nil => intro m hm; simpa using hm
  | cons r rest ih =>
    intro m hm
    simp only [List.foldl_cons]
    apply ih
    apply setState_std_dev_inv m r.1 (mkState r.1 r.2) hm
    norm_num [mkState]

/-- A successful polling loop preserves the floor (`add_poll` leaves
`std_dev` unchanged). -/
theorem addPolls_std_dev_inv :
    ∀ (polling : List PollRow) (m m' : StatesDict),
      (∀ p ∈ m, 1 ≤ p.2.std_dev) →
      simulation_pipeline.addPolls m polling = Except.ok m' →
      ∀ p ∈ m', 1 ≤ p.2.std_dev := by
  intro polling
  induction polling with
  | nil =>
    intro m m' hm hok
    unfold simulation_pipeline.addPolls at hok
    cases hok
    exact hm
  | cons row rest ih =>
    intro m m' hm hok
    unfold simulation_pipeline.addPolls at hok
    cases hlk : lookupState m row.state_name with
    | none =>
      rw [hlk] at hok
      exact ih m m' hm hok
    | some st =>
      rw [hlk] at hok
      dsimp only at hok
      cases hadd : st.add_poll row.harris_support row.trump_support
          row.weight row.moe with
      | error e => rw [hadd] at hok; simp at hok
      | ok st' =>
        rw [hadd] at hok
        dsimp only at hok
        apply ih _ _ _ hok
        apply setState_std_dev_inv _ _ _ hm
        rw [add_poll_std_dev st _ _ _ _ st' hadd]
        exact hm _ (lookupState_mem row.state_name st m hlk)

/-- C4: after any recomputation or override `std_dev` is at least 1:
both aggregator variants floor it at 1, the safe-state overrides set it
to 2, and every state produced by a successful `get_states` run
satisfies `std_dev >= 1`. -/
theorem C4_uncertainty_floor :
    (∀ s : State,
      1 ≤ (models.calculate_weighted_support s).std_dev ∧
      1 ≤ (simulation_pipeline.calculate_weighted_support s).std_dev) ∧
    (∀ s : State,
      (simulation_pipeline.safe_harris_update s).std_dev = 2 ∧
      (simulation_pipeline.safe_trump_update s).std_dev = 2) ∧
    (∀ (roster : List (String × ℤ))
       (safeH safeT competitive : List String)
       (polling : List PollRow) (m : StatesDict),
      simulation_pipeline.get_states roster safeH safeT competitive polling =
        Except.ok m →
      ∀ p ∈ m, 1 ≤ p.2.std_dev) := by
  refine ⟨fun s => ⟨models_calc_std_dev_ge_one s, pipeline_calc_std_dev_ge_one s⟩,
    fun s => ⟨rfl, rfl⟩, ?_⟩
  intro roster safeH safeT competitive polling m hok
  unfold simulation_pipeline.get_states at hok
  dsimp only at hok
  have h1 := read_states_info_std_dev_inv roster
  have h2 := foldl_applyIfPresent_std_dev_inv
    simulation_pipeline.safe_harris_update (fun st => by norm_num
      [simulation_pipeline.safe_harris_update]) safeH _ h1
  have h3 := foldl_applyIfPresent_std_dev_inv
    simulation_pipeline.safe_trump_update (fun st => by norm_num
      [simulation_pipeline.safe_trump_update]) safeT _ h2
  cases hadd : simulation_pipeline.addPolls
      (simulation_pipeline.applySafeTrump
        (simulation_pipeline.applySafeHarris
          (simulation_pipeline.read_states_info roster) safeH) safeT)
      polling with
  | error e =>
    rw [hadd] at hok
    simp at hok
  | ok m2 =>
    rw [hadd] at hok
    dsimp only at hok
    have h4 := addPolls_std_dev_inv polling _ m2 h3 hadd
    have h5 := foldl_applyIfPresent_std_dev_inv
      simulation_pipeline.calculate_weighted_support
      pipeline_calc_std_dev_ge_one competitive m2 h4
    cases hok
    exact h5

theorem C4_uncertainty_floor_witness :
    simulation_pipeline.get_states [("A", 3)] [] [] [] [] =
      Except.ok [("A", mkState "A" 3)] ∧
    1 ≤ (("A", mkState "A" 3) : String × State).2.std_dev :=
  ⟨rfl, C4_uncertainty_floor.2.2 [("A", 3)] [] [] [] [] [("A", mkState "A" 3)]
    rfl ("A", mkState "A" 3) (by simp)⟩

/-! ## C5: the aggregation variants across modules -/

/-- A state with one concrete poll, on which the `election.py` variant
disagrees with the MOE-weighted variants. -/
def c5State : State :=
  { mkState "Test" 10 with polls := [⟨55, 45, 2, 3⟩] }

/-- C5 counterexample: at a single poll `(55, 45, weight 2, moe 3)` the
`models.py` aggregation yields uncertainty `3 / 1.96`, while the
`election.py` aggregation yields the fixed 4.0, so the module variants
do not all compute identical figures. -/
theorem C5_variants_not_identical :
    ¬ ((models.calculate_weighted_support c5State).std_dev =
        (election.calculate_weighted_support c5State).std_dev) := by
  simp [models.calculate_weighted_support, election.calculate_weighted_support,
    c5State, mkState, totalWeight, moeTotal]
  norm_num

/-- C5 amended: the `models.py`, `election_simulation.py` and
`simulation_pipeline.py` aggregations agree on all three derived figures
for every poll list; the `election.py` aggregation agrees with them on
both supports, but whenever the total weight is non-zero it sets the
fixed 4.0 uncertainty instead of the weighted-MOE formula. -/
theorem C5_moe_variants_agree (s : State) :
    models.calculate_weighted_support s =
      election_simulation.calculate_weighted_support s ∧
    models.calculate_weighted_support s =
      simulation_pipeline.calculate_weighted_support s ∧
    (election.calculate_weighted_support s).harris_support =
      (models.calculate_weighted_support s).harris_support ∧
    (election.calculate_weighted_support s).trump_support =
      (models.calculate_weighted_support s).trump_support ∧
    (totalWeight s.polls ≠ 0 →
      (election.calculate_weighted_support s).std_dev = 4) := by
  refine ⟨rfl, ?_, ?_, ?_, ?_⟩
  · unfold models.calculate_weighted_support
      simulation_pipeline.calculate_weighted_support
    by_cases h : totalWeight s.polls = 0
    · simp [h]
    · simp [h, if_lt_one_eq_max, max_comm]
  · unfold models.calculate_weighted_support
      election.calculate_weighted_support
    by_cases h : totalWeight s.polls = 0
    · simp [h]
    · simp [h]
  · unfold models.calculate_weighted_support
      election.calculate_weighted_support
    by_cases h : totalWeight s.polls = 0
    · simp [h]
    · simp [h]
  · intro h
    unfold election.calculate_weighted_support
    simp [h]

theorem C5_moe_variants_agree_witness :
    totalWeight c5State.polls ≠ 0 ∧
    (election.calculate_weighted_support c5State).std_dev = 4 :=
  ⟨by decide, (C5_moe_variants_agree c5State).2.2.2.2 (by decide)⟩

/-! ## C6: poll-weight validation -/

/-- C6: a poll whose weight lies outside [1,10] is rejected with the
validation error before anything is stored (no new state is produced,
so the poll list is untouched, never clamped or silently dropped),
while a weight in [1,10] appends exactly the given poll with no
error. -/
theorem C6_add_poll_validation (s : State) (hs ts : ℚ) (w : ℤ) (moe : ℚ) :
    ((w < 1 ∨ 10 < w) →
      s.add_poll hs ts w moe =
        Except.error "Weight must be between 1 and 10") ∧
    (1 ≤ w → w ≤ 10 →
      s.add_poll hs ts w moe =
        Except.ok { s with polls := s.polls ++ [⟨hs, ts, w, moe⟩] }) := by
  constructor
  · intro hw
    unfold State.add_poll
    rw [if_pos hw]
  · intro h1 h2
    unfold State.add_poll
    rw [if_neg]
    push_neg
    exact ⟨h1, h2⟩

theorem C6_add_poll_validation_witness :
    ((0 : ℤ) < 1 ∨ 10 < (0 : ℤ)) ∧
    (mkState "Test" 10).add_poll 50 50 0 3 =
      Except.error "Weight must be between 1 and 10" ∧
    ((1 : ℤ) ≤ 5 ∧ (5 : ℤ) ≤ 10) ∧
    (mkState "Test" 10).add_poll 51 49 5 4 =
      Except.ok { mkState "Test" 10 with
        polls := (mkState "Test" 10).polls ++ [⟨51, 49, 5, 4⟩] } :=
  ⟨Or.inl (by decide),
    (C6_add_poll_validation (mkState "Test" 10) 50 50 0 3).1 (by decide),
    ⟨by decide, by decide⟩,
    (C6_add_poll_validation (mkState "Test" 10) 51 49 5 4).2 (by decide)
      (by decide)⟩

/-! ## C8: zero uncertainty multiplier -/

/-- The state built by
`test_simulation_deterministic_with_poll_uncertainty_zero`. -/
def c8State : State :=
  { mkState "Test" 300 with
    harris_support := 55
    trump_support := 45
    std_dev := 5 }

/-- C8: the simulation takes an uncertainty-multiplier parameter applied
at sampling time, and a multiplier of 0 collapses the draw to the mean
margin: for the single test state (support 55/45, uncertainty 5) with
multiplier 0, one trial awards its 300 electoral votes to Harris no
matter what the random stream produces. -/
theorem C8_zero_multiplier_deterministic :
    (∀ mu sd zv : ℚ, gauss mu (sd * 0) zv = mu) ∧
    (∀ z : ℕ → ℚ,
      simulation.simulate_election z [c8State] 1 0 (fun _ => 0) =
        { harris_wins := 1, trump_wins := 0, ties := 0 }) := by
  constructor
  · intro mu sd zv
    simp [gauss]
  · intro z
    simp [simulation.simulate_election, simulation.simulateElectionAux,
      simulation.trialTallyScenario, gauss, c8State, mkState]
    norm_num

/-! ## C9: seed determinism -/

/-- C9: both simulation loops are deterministic functions of their
random source: the pipeline engine run twice over equal standard-normal
streams yields identical trial-by-trial results, and
`simulate_state_winners`, which takes an explicit seed and consumes only
the stream that seed determines, yields identical predictions across two
runs whose generators agree on that seed's stream. -/
theorem C9_seed_determinism :
    (∀ (z₁ z₂ : ℕ → ℚ) (states : List State) (simulations : ℕ),
      (∀ k, z₁ k = z₂ k) →
      simulation_pipeline.MonteCarloSimulationEngine.run z₁ states simulations =
        simulation_pipeline.MonteCarloSimulationEngine.run z₂ states
          simulations) ∧
    (∀ (g₁ g₂ : ℕ → ℕ → ℚ) (seed : ℕ) (states : List State)
        (simulations : ℕ),
      (∀ k, g₁ seed k = g₂ seed k) →
      accuracy_evaluation.simulate_state_winners g₁ states simulations seed =
        accuracy_evaluation.simulate_state_winners g₂ states simulations
          seed) := by
  constructor
  · intro z₁ z₂ states simulations h
    rw [funext h]
  · intro g₁ g₂ seed states simulations h
    unfold accuracy_evaluation.simulate_state_winners
    rw [funext h]

theorem C9_seed_determinism_witness :
    accuracy_evaluation.simulate_state_winners (fun s _ => (s : ℚ))
      [mkState "A" 3] 1 0 =
    accuracy_evaluation.simulate_state_winners (fun s _ => 2 * (s : ℚ))
      [mkState "A" 3] 1 0 :=
  C9_seed_determinism.2 (fun s _ => (s : ℚ)) (fun s _ => 2 * (s : ℚ)) 0
    [mkState "A" 3] 1 (fun k => by simp)

/-! ## C10: per-state majority prediction -/

/-- C10: in the accuracy-backtesting prediction, every state gets
exactly one of the strings Democrat or Republican, and the prediction is
Democrat precisely when the state's Harris trial-win count is at least
its Trump trial-win count — so an exact count tie is predicted
Democrat. -/
theorem C10_tie_goes_to_democrat (prng : ℕ → ℕ → ℚ) (states : List State)
    (simulations seed : ℕ) (p : String × String)
    (hp : p ∈ accuracy_evaluation.simulate_state_winners prng states
      simulations seed) :
    (p.2 = "Democrat" ∨ p.2 = "Republican") ∧
    (p.2 = "Democrat" ↔
      (accuracy_evaluation.win_counts (prng seed) states simulations p.1).2 ≤
        (accuracy_evaluation.win_counts (prng seed) states simulations
          p.1).1) := by
  unfold accuracy_evaluation.simulate_state_winners at hp
  rcases List.mem_map.mp hp with ⟨st, hmem, rfl⟩
  dsimp only
  unfold accuracy_evaluation.predictionOf
  by_cases h :
    (accuracy_evaluation.win_counts (prng seed) states simulations st.name).1 ≥
      (accuracy_evaluation.win_counts (prng seed) states simulations st.name).2
  · rw [if_pos h]
    exact ⟨Or.inl rfl, ⟨fun _ => h, fun _ => rfl⟩⟩
  · rw [if_neg h]
    refine ⟨Or.inr rfl, ⟨fun hcontra => absurd hcontra (by decide),
      fun hle => absurd hle h⟩⟩

theorem C10_tie_goes_to_democrat_witness :
    ("T", "Republican") ∈ accuracy_evaluation.simulate_state_winners
      (fun _ _ => 0) [mkState "T" 3] 1 0 ∧
    ((("T", "Republican") : String × String).2 = "Democrat" ∨
      (("T", "Republican") : String × String).2 = "Republican") := by
  have hmem : ("T", "Republican") ∈ accuracy_evaluation.simulate_state_winners
      (fun _ _ => 0) [mkState "T" 3] 1 0 := by
    simp [accuracy_evaluation.simulate_state_winners,
      accuracy_evaluation.win_counts, accuracy_evaluation.trialsLoop,
      accuracy_evaluation.oneTrial, accuracy_evaluation.bumpCount,
      accuracy_evaluation.predictionOf, gauss, mkState]
  exact ⟨hmem, (C10_tie_goes_to_democrat (fun _ _ => 0) [mkState "T" 3] 1 0
    ("T", "Republican") hmem).1⟩
